import Mathlib

/-!
Verification development for the `easier_life_scripts` repository.

The Python scripts are shallowly embedded: strings become `List Char`,
per-line file contents become `List (List Char)`, and the external
collaborators (the `gcloud` subprocess, the GCP compute API, `json.loads`)
are passed in as explicit function parameters, so every embedded function
is total and executable.
-/

set_option linter.unnecessarySeqFocus false

/-! ## Python string primitives

Faithful models of the `str` operations the scripts use:
`str.strip()`, `str.split()` (whitespace split), `str.split(sep)`,
`sep in s`, and `str.startswith`.
-/

/-- The ASCII whitespace characters recognised by Python's `str.strip()` /
`str.split()` for the inputs these scripts handle. -/
def pyIsSpace (c : Char) : Bool :=
  c == ' ' || c == '\t' || c == '\n' || c == '\r' || c == '\x0b' || c == '\x0c'

/-- Python `str.strip()`: drop leading and trailing whitespace. -/
def pyStrip (l : List Char) : List Char :=
  ((l.dropWhile pyIsSpace).reverse.dropWhile pyIsSpace).reverse

/-- Auxiliary length bound used for termination of `pySplitWs`. -/
theorem length_dropWhile_le (p : Char → Bool) (l : List Char) :
    (l.dropWhile p).length ≤ l.length := by
  induction l with
  | nil => simp [List.dropWhile]
  | cons c cs ih =>
    cases h : p c <;> simp [List.dropWhile, h] <;> omega

/-- Fuelled worker for `pySplitWs`; the fuel is only a termination
device (every step consumes at least one character) and `pySplitWs`
always supplies enough of it. -/
def pySplitWsF : Nat → List Char → List (List Char)
  | 0, _ => []
  | _ + 1, [] => []
  | fuel + 1, c :: cs =>
    if pyIsSpace c then pySplitWsF fuel cs
    else (c :: cs.takeWhile (fun x => ¬ pyIsSpace x)) ::
      pySplitWsF fuel (cs.dropWhile (fun x => ¬ pyIsSpace x))

/-- Python `str.split()` with no argument: split on runs of whitespace,
discarding empty fields. -/
def pySplitWs (l : List Char) : List (List Char) :=
  pySplitWsF (l.length + 1) l

/-- Locate the first occurrence of `sep` in `l`: returns
`some (before, after)` where `l = before ++ sep ++ after` and `before` is
shortest, or `none` when `sep` does not occur.  Models Python's substring
search used by `in` and `str.split(sep)`. -/
def findSub (sep : List Char) : List Char → Option (List Char × List Char)
  | [] => if sep.isEmpty then some ([], []) else none
  | c :: cs =>
    if sep.isPrefixOf (c :: cs) then some ([], (c :: cs).drop sep.length)
    else
      match findSub sep cs with
      | some (b, a) => some (c :: b, a)
      | none => none

/-- Python `sep in s` for a nonempty `sep`. -/
def pyContains (sep l : List Char) : Bool :=
  (findSub sep l).isSome

/-- Fuelled worker for `pySplitOn`; the fuel is only a termination device
and `pySplitOn` always supplies enough of it. -/
def pySplitOnF : Nat → List Char → List Char → List (List Char)
  | 0, _, l => [l]
  | fuel + 1, sep, l =>
    match findSub sep l with
    | none => [l]
    | some (b, a) => b :: pySplitOnF fuel sep a

/-- Python `s.split(sep)` for a nonempty separator string `sep`. -/
def pySplitOn (sep l : List Char) : List (List Char) :=
  pySplitOnF (l.length + 1) sep l

/-- Python `s.startswith(t)`. -/
def pyStartswith (t l : List Char) : Bool :=
  t.isPrefixOf l

/-! ## `src/gcp/cp/CUDs/gcp_cuds_estate.py`

The subprocess boundary (`subprocess.run`) is modelled as a parameter
`sub : List String → Except String (List Char)`: `.ok stdout` for a
command that exits 0, `.error e` for a `CalledProcessError` (carrying
`e.stderr`) or any other exception (carrying `str(e)`).  `json.loads`
on a commitments listing is modelled as a parameter
`jparse : List Char → Option (List Cud)`, `none` for a
`json.JSONDecodeError`.
-/

namespace CudsEstate

/-- The dictionary returned by `run_command`. -/
structure RunResult where
  success : Bool
  output : Option (List Char)
  error : Option String
deriving Repr, DecidableEq

/-- `run_command`: run the command, returning
`{"success": True, "output": stdout, "error": None}` on exit 0 and
`{"success": False, "output": None, "error": ...}` when the subprocess
raises; no exception escapes. -/
def run_command (sub : List String → Except String (List Char))
    (cmd : List String) : RunResult :=
  match sub cmd with
  | .ok out => ⟨true, some out, none⟩
  | .error e => ⟨false, none, some e⟩

/-- One resource entry of a commitment (`cud.get('resources', [])`). -/
structure CudResource where
  type : Option String
  amount : Option String
deriving Repr, DecidableEq

/-- One commitment as parsed from the JSON listing. -/
structure Cud where
  name : Option String
  region : Option String
  status : Option String
  plan : Option String
  resources : List CudResource
deriving Repr, DecidableEq

/-- A project dictionary from `gcloud projects list`; `none` models a
missing key (Python `dict.get`). -/
structure Project where
  projectId : Option (List Char)
  name : Option (List Char)
deriving Repr, DecidableEq

/-- The per-project result dictionary built by `get_project_cuds`. -/
structure CudInfo where
  projectId : List Char
  projectName : List Char
  computeCUDs : List Cud
  totalCUDs : Nat
deriving Repr, DecidableEq

/-- An entry of `failed_projects`. -/
structure FailedProject where
  projectId : Option (List Char)
  error : String
deriving Repr, DecidableEq

/-- `filter_projects`: drop projects whose id starts with `sys-`. -/
def filter_projects (projects : List Project) : List Project :=
  projects.filter
    (fun p => ¬ pyStartswith ("sys-".toList) (p.projectId.getD []))

/-- `get_compute_cuds`: list commitments for one project.  On a failed
command it returns `[]`; on success it parses the JSON output unless the
stripped output is empty; a parse error also yields `[]`. -/
def get_compute_cuds (sub : List String → Except String (List Char))
    (jparse : List Char → Option (List Cud)) (project_id : List Char) :
    List Cud :=
  let cmd := ["gcloud", "compute", "commitments", "list",
    "--project=" ++ String.mk project_id, "--format=json"]
  let result := run_command sub cmd
  if result.success = false then []
  else
    match result.output with
    | none => []
    | some out =>
      if pyStrip out = [] then []
      else
        match jparse out with
        | some cuds => cuds
        | none => []

/-- `get_project_cuds`: build the result dictionary for one project
(the thread-safe progress printing has no effect on the value). -/
def get_project_cuds (sub : List String → Except String (List Char))
    (jparse : List Char → Option (List Cud)) (project : Project) :
    CudInfo :=
  let project_id := project.projectId.getD []
  let project_name := project.name.getD []
  let compute_cuds := get_compute_cuds sub jparse project_id
  ⟨project_id, project_name, compute_cuds, compute_cuds.length⟩

/-- The three collections the fan-in loop in `main` mutates. -/
structure CollectState where
  all_project_results : List CudInfo
  projects_with_cuds : List CudInfo
  failed_projects : List FailedProject
deriving Repr, DecidableEq

/-- One iteration of the `as_completed` fan-in loop: `future.result()`
either yields a `CudInfo` (appended to `all_project_results`, and to
`projects_with_cuds` when it has CUDs) or raises (appended to
`failed_projects`). -/
def collect_step (beh : Project → Except String CudInfo)
    (st : CollectState) (project : Project) : CollectState :=
  match beh project with
  | .ok cud_info =>
    { st with
      all_project_results := st.all_project_results ++ [cud_info]
      projects_with_cuds :=
        st.projects_with_cuds ++
          (if cud_info.totalCUDs > 0 then [cud_info] else []) }
  | .error e =>
    { st with
      failed_projects := st.failed_projects ++ [⟨project.projectId, e⟩] }

/-- The whole fan-in loop of `main`: `arrivals` is the order in which
`as_completed` yields the futures (a permutation of the submitted
projects), `beh` the behaviour of `future.result()` for each. -/
def collectLoop (beh : Project → Except String CudInfo)
    (arrivals : List Project) : CollectState :=
  arrivals.foldl (collect_step beh) ⟨[], [], []⟩

/-- The five counters of the SUMMARY block of `main`. -/
structure Summary where
  scanned : Nat
  processed : Nat
  failed : Nat
  withCuds : Nat
  totalCuds : Nat
deriving Repr, DecidableEq

/-- The SUMMARY block: `len(filtered_projects)`,
`len(all_project_results)`, `len(failed_projects)`,
`len(projects_with_cuds)` and `sum(p['totalCUDs'] ...)`. -/
def summaryOf (filtered : List Project) (st : CollectState) : Summary :=
  ⟨filtered.length, st.all_project_results.length,
    st.failed_projects.length, st.projects_with_cuds.length,
    (st.projects_with_cuds.map (fun p => p.totalCUDs)).sum⟩

/-- The lines printed for one CUD inside a project block. -/
def cudLines (cud : Cud) : List String :=
  ["    - Name: " ++ cud.name.getD "N/A",
   "      Region: " ++ cud.region.getD "N/A",
   "      Status: " ++ cud.status.getD "N/A",
   "      Plan: " ++ cud.plan.getD "N/A"] ++
  (if cud.resources ≠ [] then
    ["      Resources:"] ++
      cud.resources.map (fun r =>
        "        * Type: " ++ r.type.getD "N/A" ++
          ", Amount: " ++ r.amount.getD "N/A")
  else [])

/-- The block of lines `main` prints for one entry of
`projects_with_cuds`. -/
def projectBlock (info : CudInfo) : List String :=
  ["Project ID: " ++ String.mk info.projectId,
   "Project Name: " ++ String.mk info.projectName,
   "Total CUDs: " ++ toString info.totalCUDs] ++
  (if info.computeCUDs ≠ [] then
    ["  Compute Engine CUDs:"] ++ info.computeCUDs.flatMap cudLines
  else []) ++
  ["-" ]

/-- The RESULTS section of `main`: one block per entry of
`projects_with_cuds`, in the order the outcomes arrived. -/
def displayResults (st : CollectState) : List String :=
  if st.projects_with_cuds = [] then ["No CUDs found in any project."]
  else
    ("Found CUDs in " ++ toString st.projects_with_cuds.length ++
      " project(s):") :: st.projects_with_cuds.flatMap projectBlock

/-- `max_workers = min(20, total_projects)` in
`src/gcp/cp/CUDs/gcp_cuds_estate.py`. -/
def max_workers (total_projects : Nat) : Nat :=
  min 20 total_projects

end CudsEstate

/-- `ThreadPoolExecutor(max_workers=10)` in the older variant
`src/gcp/cp/gcp_cuds_estate.py`: the pool size is a constant. -/
def cpEstateMaxWorkers : Nat := 10

/-! ## `src/gcp/FinOps/un-attached-disks.py`

The GCP compute API is modelled by two parameters: `lookup`, the result
of `get_disk(project_id, disk_name)` (which returns exactly one of the
three shapes `(disk, zone, None)`, `(None, None, None)`,
`(None, None, str(e))`), and `delOk`, whether the `delete_disk` API call
succeeds.  The input file is a list of raw lines.
-/

namespace UnattachedDisks

/-- A compute disk; only the `users` field is consulted. -/
structure Disk where
  users : List String
deriving Repr, DecidableEq

/-- The three possible return shapes of `get_disk`. -/
inductive DiskLookup where
  | err (e : String)
  | notFound
  | found (disk : Disk) (zone : List Char)
deriving Repr, DecidableEq

/-- `is_disk_unattached`: `not disk.users or len(disk.users) == 0`. -/
def is_disk_unattached (disk : Disk) : Bool :=
  disk.users.isEmpty || disk.users.length == 0

/-- The body of the `parse_input_file` loop: strip the line, skip blank
and `#` lines, warn and skip lines with fewer than two fields, append
`(parts[0], parts[1])` otherwise. -/
def parse_step (entries : List (List Char × List Char))
    (line : List Char) : List (List Char × List Char) :=
  let line := pyStrip line
  if line = [] || pyStartswith [ '#' ] line then entries
  else
    let parts := pySplitWs line
    if parts.length < 2 then entries
    else entries ++ [(parts.getD 0 [], parts.getD 1 [])]

/-- `parse_input_file`: run the loop over all lines, in file order. -/
def parse_input_file (lines : List (List Char)) :
    List (List Char × List Char) :=
  lines.foldl parse_step []

/-- The counters of the main loop plus the delete calls actually issued
to the API (`delete_disk` invocations). -/
structure LoopState where
  deleted_count : Nat
  skipped_count : Nat
  error_count : Nat
  delete_calls : List (List Char × List Char × List Char)
deriving Repr, DecidableEq

/-- One iteration of the main loop over the entries. -/
def process_entry (dry_run : Bool)
    (lookup : List Char × List Char → DiskLookup)
    (delOk : List Char × List Char × List Char → Bool)
    (st : LoopState) (entry : List Char × List Char) : LoopState :=
  match lookup entry with
  | .err _ => { st with error_count := st.error_count + 1 }
  | .notFound => { st with skipped_count := st.skipped_count + 1 }
  | .found disk zone =>
    if ¬ is_disk_unattached disk then
      { st with skipped_count := st.skipped_count + 1 }
    else if dry_run then
      { st with deleted_count := st.deleted_count + 1 }
    else
      let call := (entry.1, zone, entry.2)
      let st := { st with delete_calls := st.delete_calls ++ [call] }
      if delOk call then { st with deleted_count := st.deleted_count + 1 }
      else { st with error_count := st.error_count + 1 }

/-- The whole main loop over the parsed entries. -/
def processEntries (dry_run : Bool)
    (lookup : List Char × List Char → DiskLookup)
    (delOk : List Char × List Char × List Char → Bool)
    (entries : List (List Char × List Char)) : LoopState :=
  entries.foldl (process_entry dry_run lookup delOk) ⟨0, 0, 0, []⟩

/-- `main`, reduced to its exit code: the input file is `none` when
unreadable (`open` raises and the uncaught exception makes Python exit
non-zero, modelled as 1); `sys.exit(1)` when no valid entries; otherwise
the loop runs to completion and the process exits 0. -/
def mainExit (lookup : List Char × List Char → DiskLookup)
    (delOk : List Char × List Char × List Char → Bool)
    (file : Option (List (List Char))) (dry_run : Bool) : Nat :=
  match file with
  | none => 1
  | some lines =>
    let entries := parse_input_file lines
    if entries = [] then 1
    else
      let _ := processEntries dry_run lookup delOk entries
      0

end UnattachedDisks

/-! ## `src/gcp/cp/Project Users Remove/project_users_remove.py`

`get_project_policy` (a `gcloud ... get-iam-policy` call plus JSON
parse) is modelled as a parameter `policyOf : List Char → Option Policy`;
`none` covers both a non-zero gcloud exit and a JSON parse error.  A
policy dictionary is reduced to its `bindings` list; `Option` at the
policy level models Python `None`/falsy policies.
-/

namespace UsersRemove

/-- One IAM binding: `role` is `none` when the `"role"` key is absent. -/
structure Binding where
  role : Option (List Char)
  members : List (List Char)
deriving Repr, DecidableEq

/-- A parsed IAM policy, reduced to `policy.get("bindings", [])`. -/
abbrev Policy := List Binding

/-- The body of the `find_roles_for_member` loop: for a binding whose
`members` contains the member, append `binding.get("role")` when that
value is truthy (present and not the empty string `""`). -/
def roles_step (member : List Char) (roles : List (List Char))
    (binding : Binding) : List (List Char) :=
  if member ∈ binding.members then
    match binding.role with
    | some role => if role = [] then roles else roles ++ [role]
    | none => roles
  else roles

/-- `find_roles_for_member`: `[]` for a falsy policy, otherwise the loop
over the bindings in order. -/
def find_roles_for_member (policy : Option Policy)
    (member : List Char) : List (List Char) :=
  match policy with
  | none => []
  | some bindings => bindings.foldl (roles_step member) []

/-- The body of the `remove_member_from_project_roles` loop: log an
`[INFO] Removing ...` line for the role; when not in dry-run, issue the
`gcloud projects remove-iam-policy-binding` call.  The accumulator pairs
the issued gcloud invocations with the roles logged as being removed. -/
def remove_step (project_id member : List Char) (dry_run : Bool)
    (acc : List (List String) × List (List Char)) (role : List Char) :
    List (List String) × List (List Char) :=
  let logged := acc.2 ++ [role]
  if dry_run then (acc.1, logged)
  else
    (acc.1 ++
      [["projects", "remove-iam-policy-binding",
        String.mk project_id, "--member", String.mk member,
        "--role", String.mk role, "--quiet"]],
      logged)

/-- `remove_member_from_project_roles` as the fold of `remove_step` over
the roles. -/
def remove_member_from_project_roles (project_id member : List Char)
    (roles : List (List Char)) (dry_run : Bool) :
    List (List String) × List (List Char) :=
  roles.foldl (remove_step project_id member dry_run) ([], [])

/-- The loop body of `process_input_file`, threading the `exit_code`
accumulator through the remaining lines. -/
def processLines (policyOf : List Char → Option Policy)
    (dry_run : Bool) (exit_code : Nat) :
    List (List Char) → Nat
  | [] => exit_code
  | raw_line :: rest =>
    let line := pyStrip raw_line
    if line = [] || pyStartswith [ '#' ] line then
      processLines policyOf dry_run exit_code rest
    else
      let parts := pySplitWs line
      if parts.length < 2 then processLines policyOf dry_run 1 rest
      else
        let project_id := parts.getD 0 []
        let user_email := parts.getD 1 []
        let member := "user:".toList ++ user_email
        match policyOf project_id with
        | none => processLines policyOf dry_run 1 rest
        | some policy =>
          let roles := find_roles_for_member (some policy) member
          if roles = [] then processLines policyOf dry_run exit_code rest
          else
            let _ := remove_member_from_project_roles project_id member
              roles dry_run
            processLines policyOf dry_run exit_code rest

/-- `process_input_file`: returns the exit code.  `none` models a
missing/unreadable input file (return 1); an empty file returns 0 with a
warning; otherwise the loop over the lines. -/
def process_input_file (policyOf : List Char → Option Policy)
    (file : Option (List (List Char))) (dry_run : Bool) : Nat :=
  match file with
  | none => 1
  | some lines =>
    if lines = [] then 0
    else processLines policyOf dry_run 0 lines

end UsersRemove

/-! ## `src/gcp/cp/IAM/Labels/Getting Labels from Input/project_labels_from_input.py` -/

namespace ProjectLabels

/-- The body of this script's `parse_input_file` loop: strip the line,
skip blank and `#` lines, append the stripped line otherwise. -/
def labels_step (project_numbers : List (List Char))
    (line : List Char) : List (List Char) :=
  let line := pyStrip line
  if line = [] || pyStartswith [ '#' ] line then project_numbers
  else project_numbers ++ [line]

/-- `parse_input_file`: collect every non-blank, non-`#` stripped line
verbatim, in file order. -/
def parse_input_file (lines : List (List Char)) : List (List Char) :=
  lines.foldl labels_step []

end ProjectLabels

/-! ## `src/gcp/cp/all_users3.py` -/

namespace AllUsers3

/-- `extract_project_id`: if `'/projects/'` occurs in the resource path,
split on it, take `parts[1]`, and return the part of it before the next
`'/'`; otherwise return `'N/A'`. -/
def extract_project_id (resource : List Char) : List Char :=
  if pyContains ("/projects/".toList) resource then
    let parts := pySplitOn ("/projects/".toList) resource
    if parts.length > 1 then
      let project_part := parts.getD 1 []
      let project_id := (pySplitOn [ '/' ] project_part).getD 0 []
      project_id
    else "N/A".toList
  else "N/A".toList

end AllUsers3

/-! ## Spec-side definitions

Each of these follows the words of a claim (or of its minimal
amendment), to be compared against the embedded source functions. -/

/-- Claim C6/C7, following the claim's words: a line yields a work unit
iff, after stripping, it is non-blank, does not start with `#`, and has
at least two whitespace-separated fields; the unit is the first two
fields. -/
def parseLineSpec (line : List Char) : Option (List Char × List Char) :=
  let s := pyStrip line
  if s = [] then none
  else if pyStartswith [ '#' ] s then none
  else
    match pySplitWs s with
    | p :: d :: _ => some (p, d)
    | _ => none

/-- Claim C7, following the claim's words for the labels script: a line
yields a work unit iff, after stripping, it is non-blank and does not
start with `#`; the unit is the stripped line. -/
def labelsLineSpec (line : List Char) : Option (List Char) :=
  let s := pyStrip line
  if s = [] then none
  else if pyStartswith [ '#' ] s then none
  else some s

/-- Claim C9 as stated: the `role` values of the bindings whose
`members` contain the member, in binding order, omitting only bindings
that lack a `role` key. -/
def rolesForMemberClaim (bindings : List UsersRemove.Binding)
    (member : List Char) : List (List Char) :=
  bindings.filterMap
    (fun b => if member ∈ b.members then b.role else none)

/-- Claim C9 as amended: additionally omit bindings whose `role` value
is the empty string (falsy in Python). -/
def rolesForMemberTruthy (bindings : List UsersRemove.Binding)
    (member : List Char) : List (List Char) :=
  bindings.filterMap
    (fun b =>
      if member ∈ b.members then
        match b.role with
        | some role => if role = [] then none else some role
        | none => none
      else none)

/-- Claim C10, following the claim's words: the substring strictly
between the first occurrence of `/projects/` and the next `/` after it
(or the end of the string), and `N/A` when `/projects/` does not
occur. -/
def extractProjectIdSpec (resource : List Char) : List Char :=
  match findSub ("/projects/".toList) resource with
  | none => "N/A".toList
  | some (_, rest) => rest.takeWhile (fun c => c != '/')

/-- Claim C5 (amended), for `project_users_remove.py`: a raw line that
the loop processes (non-blank, not a comment) and that either is
malformed (fewer than two fields) or whose project's policy fetch
fails.  Exactly these lines force a non-zero exit code. -/
def badLine (policyOf : List Char → Option UsersRemove.Policy)
    (raw_line : List Char) : Bool :=
  let line := pyStrip raw_line
  if line = [] || pyStartswith [ '#' ] line then false
  else
    let parts := pySplitWs line
    if parts.length < 2 then true
    else (policyOf (parts.getD 0 [])).isNone

/-- Claim C1/C2-adjacent helper: the contribution of one project to
`all_project_results` in the fan-in loop. -/
def okPart (beh : CudsEstate.Project → Except String CudsEstate.CudInfo)
    (p : CudsEstate.Project) : Option CudsEstate.CudInfo :=
  (beh p).toOption

/-- The contribution of one project to `projects_with_cuds`. -/
def cudsPart (beh : CudsEstate.Project → Except String CudsEstate.CudInfo)
    (p : CudsEstate.Project) : Option CudsEstate.CudInfo :=
  match beh p with
  | .ok info => if info.totalCUDs > 0 then some info else none
  | .error _ => none

/-- The contribution of one project to `failed_projects`. -/
def failPart (beh : CudsEstate.Project → Except String CudsEstate.CudInfo)
    (p : CudsEstate.Project) : Option CudsEstate.FailedProject :=
  match beh p with
  | .ok _ => none
  | .error e => some ⟨p.projectId, e⟩

/-- The `gcloud compute commitments list` invocation built by
`get_compute_cuds` for a project id. -/
def cudsCommand (project_id : List Char) : List String :=
  ["gcloud", "compute", "commitments", "list",
    "--project=" ++ String.mk project_id, "--format=json"]

/-! ## Helper lemmas -/

theorem parse_step_eq (acc : List (List Char × List Char))
    (l : List Char) :
    UnattachedDisks.parse_step acc l = acc ++ (parseLineSpec l).toList := by
  unfold UnattachedDisks.parse_step parseLineSpec
  by_cases h1 : pyStrip l = []
  · simp [h1]
  · by_cases h2 : pyStartswith [ '#' ] (pyStrip l)
    · simp [h1, h2]
    · simp only [h1, h2]
      cases hp : pySplitWs (pyStrip l) with
      | nil => simp [h1, h2, hp]
      | cons p rest =>
        cases rest with
        | nil => simp [h1, h2, hp]
        | cons d rest2 => simp [h1, h2, hp]

theorem parse_foldl_eq (lines : List (List Char))
    (acc : List (List Char × List Char)) :
    lines.foldl UnattachedDisks.parse_step acc =
      acc ++ lines.filterMap parseLineSpec := by
  induction lines generalizing acc with
  | nil => simp
  | cons l ls ih =>
    rw [List.foldl_cons, ih, List.filterMap_cons, parse_step_eq]
    cases parseLineSpec l <;> simp

theorem parse_eq_filterMap (lines : List (List Char)) :
    UnattachedDisks.parse_input_file lines =
      lines.filterMap parseLineSpec := by
  unfold UnattachedDisks.parse_input_file
  rw [parse_foldl_eq]
  simp

theorem labels_step_eq (acc : List (List Char)) (l : List Char) :
    ProjectLabels.labels_step acc l = acc ++ (labelsLineSpec l).toList := by
  unfold ProjectLabels.labels_step labelsLineSpec
  by_cases h1 : pyStrip l = []
  · simp [h1]
  · by_cases h2 : pyStartswith [ '#' ] (pyStrip l) <;> simp [h1, h2]

theorem labels_foldl_eq (lines : List (List Char))
    (acc : List (List Char)) :
    lines.foldl ProjectLabels.labels_step acc =
      acc ++ lines.filterMap labelsLineSpec := by
  induction lines generalizing acc with
  | nil => simp
  | cons l ls ih =>
    rw [List.foldl_cons, ih, List.filterMap_cons, labels_step_eq]
    cases labelsLineSpec l <;> simp

theorem labels_eq_filterMap (lines : List (List Char)) :
    ProjectLabels.parse_input_file lines =
      lines.filterMap labelsLineSpec := by
  unfold ProjectLabels.parse_input_file
  rw [labels_foldl_eq]
  simp

theorem roles_step_eq (member : List Char) (acc : List (List Char))
    (b : UsersRemove.Binding) :
    UsersRemove.roles_step member acc b =
      acc ++
        (if member ∈ b.members then
          match b.role with
          | some role => if role = [] then none else some role
          | none => none
        else (none : Option (List Char))).toList := by
  unfold UsersRemove.roles_step
  by_cases hm : member ∈ b.members
  · cases hr : b.role with
    | none => simp [hm, hr]
    | some role =>
      by_cases he : role = [] <;> simp [hm, hr, he]
  · simp [hm]

theorem roles_foldl_eq (member : List Char)
    (bindings : List UsersRemove.Binding) (acc : List (List Char)) :
    bindings.foldl (UsersRemove.roles_step member) acc =
      acc ++ rolesForMemberTruthy bindings member := by
  induction bindings generalizing acc with
  | nil => simp [rolesForMemberTruthy]
  | cons b bs ih =>
    rw [List.foldl_cons, ih, roles_step_eq]
    unfold rolesForMemberTruthy
    rw [List.filterMap_cons]
    by_cases hm : member ∈ b.members
    · cases hr : b.role with
      | none => simp [hm, hr]
      | some role =>
        by_cases he : role = [] <;> simp [hm, hr, he]
    · simp [hm]

theorem count_filterMap_eq {α β : Type} [BEq β] [LawfulBEq β]
    [DecidableEq β] (f : α → Option β) (l : List α) (b : β) :
    (l.filterMap f).count b =
      l.countP (fun a => decide (f a = some b)) := by
  induction l with
  | nil => simp
  | cons a l ih =>
    rw [List.filterMap_cons, List.countP_cons]
    cases hf : f a with
    | none => simp [hf, ih]
    | some b' =>
      rw [List.count_cons, ih]
      by_cases hb : b' = b <;> simp [hf, hb, beq_iff_eq]

theorem collect_foldl_eq
    (beh : CudsEstate.Project → Except String CudsEstate.CudInfo)
    (arrivals : List CudsEstate.Project) (st : CudsEstate.CollectState) :
    arrivals.foldl (CudsEstate.collect_step beh) st =
      ⟨st.all_project_results ++ arrivals.filterMap (okPart beh),
       st.projects_with_cuds ++ arrivals.filterMap (cudsPart beh),
       st.failed_projects ++ arrivals.filterMap (failPart beh)⟩ := by
  induction arrivals generalizing st with
  | nil => cases st; simp
  | cons p ps ih =>
    rw [List.foldl_cons, ih]
    unfold CudsEstate.collect_step okPart cudsPart failPart
    cases hb : beh p with
    | ok info =>
      by_cases hc : info.totalCUDs > 0 <;>
        simp [hb, hc, Except.toOption]
    | error e => simp [hb, Except.toOption]

theorem collectLoop_eq
    (beh : CudsEstate.Project → Except String CudsEstate.CudInfo)
    (arrivals : List CudsEstate.Project) :
    CudsEstate.collectLoop beh arrivals =
      ⟨arrivals.filterMap (okPart beh),
       arrivals.filterMap (cudsPart beh),
       arrivals.filterMap (failPart beh)⟩ := by
  unfold CudsEstate.collectLoop
  rw [collect_foldl_eq]
  simp

theorem okPart_failPart_length
    (beh : CudsEstate.Project → Except String CudsEstate.CudInfo)
    (l : List CudsEstate.Project) :
    (l.filterMap (okPart beh)).length + (l.filterMap (failPart beh)).length
      = l.length := by
  induction l with
  | nil => simp
  | cons p ps ih =>
    rw [List.filterMap_cons, List.filterMap_cons]
    cases hb : beh p <;>
      simp [okPart, failPart, hb, Except.toOption] <;> omega

/-- In dry-run mode the disks loop issues no delete call and counts one
would-delete per entry whose lookup finds an unattached disk, one skip
per attached or missing disk, one error per lookup error. -/
theorem processEntries_dry_foldl
    (lookup : List Char × List Char → UnattachedDisks.DiskLookup)
    (delOk : List Char × List Char × List Char → Bool)
    (entries : List (List Char × List Char))
    (st : UnattachedDisks.LoopState) :
    entries.foldl (UnattachedDisks.process_entry true lookup delOk) st =
      ⟨st.deleted_count + entries.countP
          (fun e =>
            match lookup e with
            | .found disk _ => UnattachedDisks.is_disk_unattached disk
            | _ => false),
        st.skipped_count + entries.countP
          (fun e =>
            match lookup e with
            | .found disk _ => ¬ UnattachedDisks.is_disk_unattached disk
            | .notFound => true
            | .err _ => false),
        st.error_count + entries.countP
          (fun e =>
            match lookup e with
            | .err _ => true
            | _ => false),
        st.delete_calls⟩ := by
  induction entries generalizing st with
  | nil => cases st; simp
  | cons e es ih =>
    rw [List.foldl_cons, ih]
    unfold UnattachedDisks.process_entry
    cases hl : lookup e with
    | err msg => simp [List.countP_cons, hl] <;> omega
    | notFound => simp [List.countP_cons, hl] <;> omega
    | found disk zone =>
      by_cases hu : UnattachedDisks.is_disk_unattached disk <;>
        simp [List.countP_cons, hl, hu] <;> omega

/-- In dry-run mode `remove_member_from_project_roles` issues no gcloud
call and logs every role. -/
theorem remove_foldl_dry (project_id member : List Char)
    (roles : List (List Char))
    (acc : List (List String) × List (List Char)) :
    roles.foldl (UsersRemove.remove_step project_id member true) acc =
      (acc.1, acc.2 ++ roles) := by
  induction roles generalizing acc with
  | nil => simp
  | cons r rs ih =>
    rw [List.foldl_cons, ih]
    unfold UsersRemove.remove_step
    simp

/-- The exit-code accumulator of the `process_input_file` loop: the
result is 1 exactly when it already was 1 or some remaining line is
bad (malformed or with a failing policy fetch). -/
theorem processLines_eq (policyOf : List Char → Option UsersRemove.Policy)
    (dry_run : Bool) (lines : List (List Char)) (exit_code : Nat) :
    UsersRemove.processLines policyOf dry_run exit_code lines =
      if lines.any (badLine policyOf) then 1 else exit_code := by
  induction lines generalizing exit_code with
  | nil => simp [UsersRemove.processLines]
  | cons raw rest ih =>
    rw [List.any_cons]
    by_cases hA : pyStrip raw = []
    · simp [UsersRemove.processLines, badLine, hA, ih]
    · by_cases hB : pyStartswith [ '#' ] (pyStrip raw) = true
      · simp [UsersRemove.processLines, badLine, hA, hB, ih]
      · by_cases hC : (pySplitWs (pyStrip raw)).length < 2
        · simp [UsersRemove.processLines, badLine, hA, hB, hC, ih]
        · cases hD :
            policyOf ((pySplitWs (pyStrip raw))[0]?.getD []) with
          | none =>
            simp [UsersRemove.processLines, badLine, hA, hB, hC, hD, ih]
          | some policy =>
            by_cases hE :
              UsersRemove.find_roles_for_member (some policy)
                ("user:".toList ++ (pySplitWs (pyStrip raw))[1]?.getD [])
                = []
            · simp [UsersRemove.processLines, badLine, hA, hB, hC, hD,
                hE, ih]
            · simp [UsersRemove.processLines, badLine, hA, hB, hC, hD,
                hE, ih]

theorem findSub_decomp (sep : List Char) :
    ∀ (l b a : List Char), findSub sep l = some (b, a) →
      l = b ++ sep ++ a := by
  intro l
  induction l with
  | nil =>
    intro b a h
    unfold findSub at h
    by_cases hs : sep.isEmpty
    · rw [if_pos hs] at h
      cases h
      simp_all [List.isEmpty_iff]
    · rw [if_neg hs] at h
      cases h
  | cons c cs ih =>
    intro b a h
    unfold findSub at h
    by_cases hp : sep.isPrefixOf (c :: cs)
    · rw [if_pos hp] at h
      cases h
      have hpre : sep <+: (c :: cs) := List.isPrefixOf_iff_prefix.mp hp
      have := List.prefix_iff_eq_append.mp hpre
      simp [this]
    · rw [if_neg hp] at h
      cases hf : findSub sep cs with
      | none => rw [hf] at h; cases h
      | some pr =>
        rw [hf] at h
        obtain ⟨b', a'⟩ := pr
        cases h
        simp [ih _ _ hf]

theorem findSub_nil_of_ne (sep : List Char) (hs : sep ≠ []) :
    findSub sep [] = none := by
  unfold findSub
  rw [if_neg]
  simpa [List.isEmpty_iff] using hs

theorem pySplitOnF_ne_nil (fuel : Nat) (sep l : List Char) :
    pySplitOnF fuel sep l ≠ [] := by
  cases fuel with
  | zero => simp [pySplitOnF]
  | succ k =>
    unfold pySplitOnF
    cases findSub sep l with
    | none => simp
    | some pr => cases pr; simp

theorem pySplitOnF_head (k : Nat) (sep l : List Char) :
    (pySplitOnF (k + 1) sep l).getD 0 [] =
      match findSub sep l with
      | none => l
      | some (b, _) => b := by
  unfold pySplitOnF
  cases hf : findSub sep l with
  | none => simp
  | some pr => cases pr; simp

theorem takeWhile_append_of_neg (p : Char → Bool) (x : Char)
    (hx : p x = false) :
    ∀ (l1 l2 : List Char),
      (l1 ++ x :: l2).takeWhile p = l1.takeWhile p := by
  intro l1
  induction l1 with
  | nil => intro l2; simp [List.takeWhile, hx]
  | cons y ys ih =>
    intro l2
    simp only [List.cons_append, List.takeWhile]
    cases hy : p y with
    | true => simp [ih l2]
    | false => simp

theorem findSub_single_head (c : Char) (l : List Char) :
    (match findSub [c] l with
      | none => l
      | some (b, _) => b) = l.takeWhile (fun x => x != c) := by
  induction l with
  | nil => simp [findSub]
  | cons y ys ih =>
    unfold findSub
    by_cases hy : y = c
    · have hp : List.isPrefixOf [c] (y :: ys) = true := by
        simp [List.isPrefixOf, hy]
      rw [if_pos hp]
      simp [List.takeWhile, hy]
    · have hp : ¬ List.isPrefixOf [c] (y :: ys) = true := by
        simp [List.isPrefixOf]
        intro h
        exact absurd h.symm hy
      rw [if_neg hp]
      cases hf : findSub [c] ys with
      | none =>
        rw [hf] at ih
        simp only [hf, List.takeWhile_cons]
        have hb : (y != c) = true := by simp [hy]
        rw [hb]
        simp only [if_true]
        rw [← ih]
      | some pr =>
        obtain ⟨b, a⟩ := pr
        rw [hf] at ih
        simp only [hf, List.takeWhile_cons]
        have hb : (y != c) = true := by simp [hy]
        rw [hb]
        simp only [if_true]
        rw [← ih]

theorem pySplitOn_single_head (c : Char) (l : List Char) :
    (pySplitOn [c] l).getD 0 [] = l.takeWhile (fun x => x != c) := by
  unfold pySplitOn
  rw [pySplitOnF_head]
  exact findSub_single_head c l

theorem pySplitOn_of_findSub (sep l b a : List Char)
    (hf : findSub sep l = some (b, a)) :
    pySplitOn sep l = b :: pySplitOnF l.length sep a := by
  have h1 : pySplitOnF (l.length + 1) sep l =
      match findSub sep l with
      | none => [l]
      | some (b, a) => b :: pySplitOnF l.length sep a := rfl
  unfold pySplitOn
  rw [h1, hf]

theorem extract_eq_spec (resource : List Char) :
    AllUsers3.extract_project_id resource = extractProjectIdSpec resource := by
  unfold AllUsers3.extract_project_id extractProjectIdSpec pyContains
  cases hf : findSub ("/projects/".toList) resource with
  | none => simp [hf]
  | some pr =>
    obtain ⟨b, a⟩ := pr
    simp only [hf, Option.isSome_some, if_true]
    rw [pySplitOn_of_findSub _ _ _ _ hf]
    have hne := pySplitOnF_ne_nil resource.length ("/projects/".toList) a
    have hlen :
        (b :: pySplitOnF resource.length ("/projects/".toList) a).length
          > 1 := by
      cases hx : pySplitOnF resource.length ("/projects/".toList) a with
      | nil => exact absurd hx hne
      | cons u v => simp [hx]
    rw [if_pos hlen]
    have hget :
        (b :: pySplitOnF resource.length ("/projects/".toList) a).getD 1 []
          = (pySplitOnF resource.length ("/projects/".toList) a).getD 0 []
          := by
      simp [List.getD]
    rw [hget]
    have hdec := findSub_decomp ("/projects/".toList) resource b a hf
    have hpos : 0 < resource.length := by
      rw [hdec]
      simp
    obtain ⟨k, hk⟩ : ∃ k, resource.length = k + 1 :=
      ⟨resource.length - 1, by omega⟩
    rw [hk, pySplitOnF_head, pySplitOn_single_head]
    cases hf2 : findSub ("/projects/".toList) a with
    | none => simp [hf2]
    | some pr2 =>
      obtain ⟨b2, a2⟩ := pr2
      simp only [hf2]
      have hdec2 := findSub_decomp ("/projects/".toList) a b2 a2 hf2
      rw [hdec2]
      have hsep : "/projects/".toList = '/' :: "projects/".toList := rfl
      rw [hsep, List.append_assoc, List.cons_append,
        takeWhile_append_of_neg]
      simp

/-! ## Claims -/

/-- C1: the fan-in loop produces exactly one outcome per submitted
project — each arrival is appended to exactly one of
`all_project_results` and `failed_projects`, so after the loop
`len(all_project_results) + len(failed_projects)` equals the number of
filtered projects, and the report's `Successfully processed` and
`Failed` counts sum to the `Total projects scanned` count. -/
theorem C1_fanin_one_outcome_per_unit
    (projects : List CudsEstate.Project)
    (beh : CudsEstate.Project → Except String CudsEstate.CudInfo)
    (arrivals : List CudsEstate.Project)
    (hperm : arrivals.Perm (CudsEstate.filter_projects projects)) :
    (CudsEstate.collectLoop beh arrivals).all_project_results.length +
        (CudsEstate.collectLoop beh arrivals).failed_projects.length =
      (CudsEstate.filter_projects projects).length ∧
    (CudsEstate.summaryOf (CudsEstate.filter_projects projects)
          (CudsEstate.collectLoop beh arrivals)).processed +
        (CudsEstate.summaryOf (CudsEstate.filter_projects projects)
          (CudsEstate.collectLoop beh arrivals)).failed =
      (CudsEstate.summaryOf (CudsEstate.filter_projects projects)
          (CudsEstate.collectLoop beh arrivals)).scanned := by
  have h1 :
      (CudsEstate.collectLoop beh arrivals).all_project_results.length +
        (CudsEstate.collectLoop beh arrivals).failed_projects.length =
      arrivals.length := by
    rw [collectLoop_eq]
    exact okPart_failPart_length beh arrivals
  have h2 := hperm.length_eq
  constructor
  · rw [h1, h2]
  · unfold CudsEstate.summaryOf
    rw [h1, h2]

/-- Concrete projects for witnesses: one is filtered out as `sys-*`. -/
def exProjects : List CudsEstate.Project :=
  [⟨some ("alpha".toList), some ("Alpha".toList)⟩,
   ⟨some ("sys-int".toList), none⟩,
   ⟨some ("beta".toList), none⟩]

/-- Concrete behaviour of `future.result()` for witnesses: the unit for
`beta` raises, every other unit succeeds with zero CUDs. -/
def exBeh (p : CudsEstate.Project) : Except String CudsEstate.CudInfo :=
  if p.projectId = some ("beta".toList) then .error ("boom")
  else .ok ⟨"alpha".toList, "Alpha".toList, [], 0⟩

/-- Concrete arrival order for witnesses: the two surviving units
complete in reversed order. -/
def exArrivals : List CudsEstate.Project :=
  [⟨some ("beta".toList), none⟩,
   ⟨some ("alpha".toList), some ("Alpha".toList)⟩]

/-- C1 witness: the concrete run over `exProjects`, with one succeeding
and one failing unit arriving in reversed order. -/
theorem C1_fanin_one_outcome_per_unit_witness :
    (CudsEstate.collectLoop exBeh exArrivals).all_project_results.length +
        (CudsEstate.collectLoop exBeh exArrivals).failed_projects.length =
      (CudsEstate.filter_projects exProjects).length ∧
    (CudsEstate.summaryOf (CudsEstate.filter_projects exProjects)
          (CudsEstate.collectLoop exBeh exArrivals)).processed +
        (CudsEstate.summaryOf (CudsEstate.filter_projects exProjects)
          (CudsEstate.collectLoop exBeh exArrivals)).failed =
      (CudsEstate.summaryOf (CudsEstate.filter_projects exProjects)
          (CudsEstate.collectLoop exBeh exArrivals)).scanned :=
  C1_fanin_one_outcome_per_unit exProjects exBeh exArrivals (by decide)

/-- C2 counterexample: a run whose client command fails (`success` is
`False`) and a run whose client command succeeds with an empty listing
produce the *same* outcome `[]` from `get_compute_cuds` — there is no
distinct `Failure(error)` outcome kind, contradicting the claim. -/
theorem C2_counterexample :
    (CudsEstate.run_command (fun _ => .error ("boom"))
        (cudsCommand ("p".toList))).success = false ∧
    (CudsEstate.run_command (fun _ => .ok ("[]".toList))
        (cudsCommand ("p".toList))).success = true ∧
    CudsEstate.get_compute_cuds (fun _ => .error ("boom"))
        (fun out => if out = "[]".toList then some [] else none)
        ("p".toList) =
      CudsEstate.get_compute_cuds (fun _ => .ok ("[]".toList))
        (fun out => if out = "[]".toList then some [] else none)
        ("p".toList) := by
  refine ⟨rfl, rfl, ?_⟩
  decide

/-- C2 as amended: when the client command for a project fails, the task
captures the error and returns normally — `get_compute_cuds` yields `[]`
(no exception crosses the task boundary), and `get_project_cuds` records
the project as processed with `totalCUDs = 0`; this outcome is the same
as that of a successful zero-resource query, not a distinct `Failure`. -/
theorem C2_amended_error_captured
    (sub : List String → Except String (List Char))
    (jparse : List Char → Option (List CudsEstate.Cud))
    (project : CudsEstate.Project)
    (herr : (CudsEstate.run_command sub
        (cudsCommand (project.projectId.getD []))).success = false) :
    CudsEstate.get_compute_cuds sub jparse
        (project.projectId.getD []) = [] ∧
    CudsEstate.get_project_cuds sub jparse project =
      ⟨project.projectId.getD [], project.name.getD [], [], 0⟩ := by
  unfold cudsCommand at herr
  have h1 : CudsEstate.get_compute_cuds sub jparse
      (project.projectId.getD []) = [] := by
    simp only [CudsEstate.get_compute_cuds]
    rw [if_pos herr]
  refine ⟨h1, ?_⟩
  simp only [CudsEstate.get_project_cuds]
  rw [h1]
  rfl

/-- The client used by the C2 witness: every command fails. -/
def exErrSub : List String → Except String (List Char) :=
  fun _ => .error ("x")

/-- The JSON parser used by the C2 witness. -/
def exNoParse : List Char → Option (List CudsEstate.Cud) :=
  fun _ => none

/-- The project used by the C2 witness. -/
def exFailProject : CudsEstate.Project := ⟨some ("p".toList), none⟩

/-- C2 witness: the amended claim at a concrete always-failing client. -/
theorem C2_amended_error_captured_witness :
    CudsEstate.get_compute_cuds exErrSub exNoParse
        (exFailProject.projectId.getD []) = [] ∧
    CudsEstate.get_project_cuds exErrSub exNoParse exFailProject =
      ⟨exFailProject.projectId.getD [],
        exFailProject.name.getD [], [], 0⟩ :=
  C2_amended_error_captured exErrSub exNoParse exFailProject rfl

/-- C3: with the dry-run flag enabled, no remediation call is ever
issued — the disks loop issues no `delete_disk` call yet counts every
entry whose lookup finds an unattached disk as `Would delete`, and
`remove_member_from_project_roles` issues no
`remove-iam-policy-binding` call yet logs every role as being
removed. -/
theorem C3_dry_run_no_remediation
    (lookup : List Char × List Char → UnattachedDisks.DiskLookup)
    (delOk : List Char × List Char × List Char → Bool)
    (entries : List (List Char × List Char))
    (project_id member : List Char) (roles : List (List Char)) :
    ((UnattachedDisks.processEntries true lookup delOk entries).delete_calls = [] ∧
      (UnattachedDisks.processEntries true lookup delOk entries).deleted_count =
        entries.countP
          (fun e =>
            match lookup e with
            | .found disk _ => UnattachedDisks.is_disk_unattached disk
            | _ => false)) ∧
    ((UsersRemove.remove_member_from_project_roles project_id member
        roles true).1 = [] ∧
      (UsersRemove.remove_member_from_project_roles project_id member
        roles true).2 = roles) := by
  constructor
  · unfold UnattachedDisks.processEntries
    rw [processEntries_dry_foldl]
    constructor
    · rfl
    · simp
  · unfold UsersRemove.remove_member_from_project_roles
    rw [remove_foldl_dry]
    exact ⟨rfl, rfl⟩

/-- Two projects, both with one CUD each, for the C4 counterexample. -/
def exCudBeh (p : CudsEstate.Project) :
    Except String CudsEstate.CudInfo :=
  .ok ⟨p.projectId.getD [], p.name.getD [],
    [⟨some ("c1"), none, none, none, []⟩], 1⟩

/-- First project of the C4 counterexample. -/
def exProjA : CudsEstate.Project :=
  ⟨some ("aa".toList), some ("A".toList)⟩

/-- Second project of the C4 counterexample. -/
def exProjB : CudsEstate.Project :=
  ⟨some ("bb".toList), some ("B".toList)⟩

/-- C4 counterexample: the two arrival orders are permutations of the
same outcome set, yet the RESULTS listing printed by `main` differs —
the final report is *not* independent of arrival order. -/
theorem C4_counterexample :
    [exProjA, exProjB].Perm [exProjB, exProjA] ∧
    CudsEstate.displayResults
        (CudsEstate.collectLoop exCudBeh [exProjA, exProjB]) ≠
      CudsEstate.displayResults
        (CudsEstate.collectLoop exCudBeh [exProjB, exProjA]) := by
  constructor
  · decide
  · decide

/-- C4 as amended: the SUMMARY counters (total scanned, successfully
processed, failed, projects with CUDs, total CUDs) are a pure,
permutation-invariant function of the outcome set, even though the
per-unit RESULTS listing follows arrival order. -/
theorem C4_amended_summary_perm_invariant
    (beh : CudsEstate.Project → Except String CudsEstate.CudInfo)
    (arrivals arrivals' : List CudsEstate.Project)
    (filtered : List CudsEstate.Project)
    (hperm : arrivals.Perm arrivals') :
    CudsEstate.summaryOf filtered (CudsEstate.collectLoop beh arrivals) =
      CudsEstate.summaryOf filtered
        (CudsEstate.collectLoop beh arrivals') := by
  rw [collectLoop_eq, collectLoop_eq]
  unfold CudsEstate.summaryOf
  have hok := (hperm.filterMap (okPart beh)).length_eq
  have hcu := hperm.filterMap (cudsPart beh)
  have hfa := (hperm.filterMap (failPart beh)).length_eq
  have hsum := (hcu.map (fun p => p.totalCUDs)).sum_eq
  simp only [CudsEstate.Summary.mk.injEq]
  exact ⟨trivial, hok, hfa, hcu.length_eq, hsum⟩

/-- C4 witness: the amended invariance at the concrete two-project run
of the counterexample's outcome set. -/
theorem C4_amended_summary_perm_invariant_witness :
    CudsEstate.summaryOf [exProjA, exProjB]
        (CudsEstate.collectLoop exCudBeh [exProjA, exProjB]) =
      CudsEstate.summaryOf [exProjA, exProjB]
        (CudsEstate.collectLoop exCudBeh [exProjB, exProjA]) :=
  C4_amended_summary_perm_invariant exCudBeh [exProjA, exProjB]
    [exProjB, exProjA] [exProjA, exProjB] (by decide)

/-- C5 counterexample: `project_users_remove.py` given one usable unit
(`"p1 u1"`, two fields, not a comment) whose policy fetch fails exits
with code 1, not 0 — per-unit failures *are* fatal to its exit code,
contradicting the claim. -/
theorem C5_counterexample :
    (pySplitWs (pyStrip ("p1 u1".toList))).length = 2 ∧
    ¬ pyStartswith [ '#' ] (pyStrip ("p1 u1".toList)) = true ∧
    UsersRemove.process_input_file (fun _ => none)
      (some ["p1 u1".toList]) false = 1 := by
  refine ⟨by decide, by decide, ?_⟩
  decide

/-- C5 as amended: `un-attached-disks.py` exits non-zero exactly when
the input file is unreadable or yields zero valid entries, and zero
otherwise even when individual units fail; `project_users_remove.py`
exits non-zero when the file is unreadable, a processed line is
malformed, or a unit's policy fetch fails, and exits zero on an empty
(or all-skipped) file. -/
theorem C5_amended_exit_codes :
    (∀ (lookup : List Char × List Char → UnattachedDisks.DiskLookup)
        (delOk : List Char × List Char × List Char → Bool)
        (dry_run : Bool),
      UnattachedDisks.mainExit lookup delOk none dry_run = 1) ∧
    (∀ (lookup : List Char × List Char → UnattachedDisks.DiskLookup)
        (delOk : List Char × List Char × List Char → Bool)
        (dry_run : Bool) (lines : List (List Char)),
      UnattachedDisks.mainExit lookup delOk (some lines) dry_run =
        if UnattachedDisks.parse_input_file lines = [] then 1 else 0) ∧
    (∀ (policyOf : List Char → Option UsersRemove.Policy)
        (dry_run : Bool),
      UsersRemove.process_input_file policyOf none dry_run = 1) ∧
    (∀ (policyOf : List Char → Option UsersRemove.Policy)
        (dry_run : Bool) (lines : List (List Char)),
      UsersRemove.process_input_file policyOf (some lines) dry_run =
        if lines = [] then 0
        else if lines.any (badLine policyOf) then 1 else 0) := by
  refine ⟨fun lookup delOk dry_run => rfl, ?_, fun policyOf dry_run => rfl, ?_⟩
  · intro lookup delOk dry_run lines
    unfold UnattachedDisks.mainExit
    by_cases h : UnattachedDisks.parse_input_file lines = [] <;> simp [h]
  · intro policyOf dry_run lines
    simp only [UsersRemove.process_input_file]
    by_cases h : lines = []
    · simp [h]
    · rw [if_neg h, if_neg h, processLines_eq]

/-- C6: the enumerator of `un-attached-disks.py` yields exactly the
first two whitespace-separated fields of every stripped line that is
non-blank, not a `#` comment, and has at least two fields, in file
order (skipping malformed lines, never failing); on the three lines
`"p1 d1"`, `"# comment"`, `"p2 d2"` it yields exactly the two units
`(p1, d1)` and `(p2, d2)`. -/
theorem C6_enumerator_filters_lines :
    (∀ lines, UnattachedDisks.parse_input_file lines =
      lines.filterMap parseLineSpec) ∧
    UnattachedDisks.parse_input_file
        ["p1 d1".toList, "# comment".toList, "p2 d2".toList] =
      [("p1".toList, "d1".toList), ("p2".toList, "d2".toList)] := by
  refine ⟨parse_eq_filterMap, ?_⟩
  decide

/-- C7 counterexample: both enumerators preserve duplicate input lines,
so a unit can appear more than once in the output — the enumerated
sequence is *not* deduplicated, contradicting the claim. -/
theorem C7_counterexample :
    1 < (UnattachedDisks.parse_input_file
          ["p1 d1".toList, "p1 d1".toList]).count
          ("p1".toList, "d1".toList) ∧
    1 < (ProjectLabels.parse_input_file
          ["123".toList, "123".toList]).count ("123".toList) := by
  constructor
  · decide
  · decide

/-- C7 as amended: the enumerators are finite and preserve
multiplicity — each unit occurs in the output exactly as many times as
a qualifying input line parses to it (so duplicates in the source are
kept, not deduplicated). -/
theorem C7_amended_multiplicity (lines : List (List Char))
    (u : List Char × List Char) (s : List Char) :
    (UnattachedDisks.parse_input_file lines).count u =
      lines.countP (fun l => decide (parseLineSpec l = some u)) ∧
    (ProjectLabels.parse_input_file lines).count s =
      lines.countP (fun l => decide (labelsLineSpec l = some s)) := by
  constructor
  · rw [parse_eq_filterMap, count_filterMap_eq]
  · rw [labels_eq_filterMap, count_filterMap_eq]

/-- C8 counterexample: the older variant `src/gcp/cp/gcp_cuds_estate.py`
passes the constant pool size 10 to the executor; with 3 enumerated
units this is not `min(configured_max, unit_count) = 3`, contradicting
the claim. -/
theorem C8_counterexample :
    ¬ cpEstateMaxWorkers = min cpEstateMaxWorkers 3 := by
  decide

/-- C8 as amended: the CUDs estate script passes
`min(20, total_projects)` as the pool size (hence a bound of at most 20
and at most the unit count), while the older variant passes the
constant 10 regardless of unit count. -/
theorem C8_amended_pool_size (n : Nat) :
    CudsEstate.max_workers n = min 20 n ∧
    CudsEstate.max_workers n ≤ 20 ∧
    CudsEstate.max_workers n ≤ n ∧
    cpEstateMaxWorkers = 10 := by
  refine ⟨rfl, ?_, ?_, rfl⟩
  · exact Nat.min_le_left 20 n
  · exact Nat.min_le_right 20 n

/-- C9 counterexample: a binding whose `role` key is present but maps to
the empty string, with the member present, is omitted by the code
(Python's truthiness test `if role:`) although the claim requires its
role value to be returned. -/
theorem C9_counterexample :
    rolesForMemberClaim [⟨some [], ["user:a@b".toList]⟩]
        ("user:a@b".toList) = [[]] ∧
    UsersRemove.find_roles_for_member
        (some [⟨some [], ["user:a@b".toList]⟩]) ("user:a@b".toList)
      = [] ∧
    ([[]] : List (List Char)) ≠ [] := by
  refine ⟨by decide, by decide, by decide⟩

/-- C9 as amended: `find_roles_for_member` returns exactly the `role`
values of the bindings whose `members` contain the member, in binding
order, omitting bindings that lack a `role` key *or whose role value is
the (falsy) empty string*; a `None` policy yields the empty list. -/
theorem C9_amended_roles_for_member
    (bindings : List UsersRemove.Binding) (member : List Char) :
    UsersRemove.find_roles_for_member (some bindings) member =
      rolesForMemberTruthy bindings member ∧
    UsersRemove.find_roles_for_member none member = [] := by
  constructor
  · simp only [UsersRemove.find_roles_for_member]
    rw [roles_foldl_eq]
    simp
  · rfl

/-- C10: `extract_project_id` returns exactly the substring strictly
between the first occurrence of `/projects/` and the next `/` after it
(or the end of the string when no further `/` follows), and `N/A` for
every string not containing `/projects/`. -/
theorem C10_extract_project_id (resource : List Char) :
    AllUsers3.extract_project_id resource =
      extractProjectIdSpec resource :=
  extract_eq_spec resource
